import Mathlib

/-!
Verification of the PyStegano LSB image-steganography program (`src/main.py`)
against its natural-language specification.

The pure core (bit-group splitting, channel merge/extract, the grid-level
hide/extract transforms) is shallowly embedded below; pixel grids are
modelled as a width, a height and a total lookup function, with equality of
grids meant pointwise on in-range coordinates.  The CLI driver `main` is
embedded as a function from parsed arguments and an abstract file-system
view to an outcome (crash / error-exit / success); stderr texts are carried
verbatim up to punctuation.
-/

/-- A pixel is an (red, green, blue) triple of channel values. -/
def Pixel : Type := Nat × Nat × Nat

instance : DecidableEq Pixel :=
  inferInstanceAs (DecidableEq (Nat × Nat × Nat))

/-- Embedding of `get_2bit_groups(value)` from `main.py`:
`reversed([(value & (0b11 << (2*i))) >> (2*i) for i in range(4)])`. -/
def get_2bit_groups (value : Nat) : List Nat :=
  ((List.range 4).map (fun i => (value &&& (0b11 <<< (2 * i))) >>> (2 * i))).reverse

/-- Embedding of `truncate_rightmost_2bits(value)` from `main.py`: `value >> 2 << 2`. -/
def truncate_rightmost_2bits (value : Nat) : Nat :=
  value >>> 2 <<< 2

/-- Embedding of `merge_pixel_value(camul_value, secret_value)` from `main.py`. -/
def merge_pixel_value (camul_value secret_value : Nat) : List Nat :=
  (get_2bit_groups secret_value).map
    (fun value => truncate_rightmost_2bits camul_value + value)

/-- Embedding of `extract_pixel_value(camul_values)` from `main.py`.  The
program always calls it on four-element lists; on `[]` Python would raise
`IndexError` at `values[0]`, which never happens in the program, so the `[]`
branch below is unreachable in every use. -/
def extract_pixel_value (camul_values : List Nat) : Nat :=
  match camul_values.map (fun cv => cv % (1 <<< 2)) with
  | [] => 0
  | v :: rest => rest.foldl (fun secret_value value => (secret_value <<< 2) + value) v

/-- Pixel grids: the abstraction behind PIL `Image` objects in `main.py` —
a width, a height, and a pixel lookup.  Reads outside `[0,width)×[0,height)`
never occur in the program; `get` returns `(0,0,0)` there, matching the
black initialisation of `Image.new` before any `putpixel`. -/
structure PixelGrid where
  width : Nat
  height : Nat
  get : Nat → Nat → Pixel

/-- Grid equality: same dimensions and same pixel at every in-range coordinate. -/
def PixelGrid.EqOn (a b : PixelGrid) : Prop :=
  a.width = b.width ∧ a.height = b.height ∧
    ∀ x y, x < a.width → y < a.height → a.get x y = b.get x y

/-- All channel values of a pixel are valid 8-bit values. -/
def Pixel.InRange (p : Pixel) : Prop :=
  p.1 ≤ 255 ∧ p.2.1 ≤ 255 ∧ p.2.2 ≤ 255

/-- Every in-range pixel of the grid has 8-bit channel values. -/
def PixelGrid.InRange (g : PixelGrid) : Prop :=
  ∀ x y, x < g.width → y < g.height → (g.get x y).InRange

/-- The grid transform of `hide_image(camul, secret)` from `main.py`.
The Python loop writes, for each data coordinate `(i,j)`, the four pixels
`(2i,2j) ↦ values[0]`, `(2i+1,2j) ↦ values[1]`, `(2i,2j+1) ↦ values[2]`,
`(2i+1,2j+1) ↦ values[3]`; every coordinate `(x,y)` of the `2·data_xs ×
2·data_ys` output is written exactly once, namely on iteration `i = x/2`,
`j = y/2` at block position `(x%2, y%2)`, i.e. group index `(y%2)*2 + (x%2)`. -/
def hide_image (camul secret : PixelGrid) : PixelGrid :=
  let data_xs := min camul.width secret.width
  let data_ys := min camul.height secret.height
  { width := 2 * data_xs
    height := 2 * data_ys
    get := fun x y =>
      if x < 2 * data_xs ∧ y < 2 * data_ys then
        let i := x / 2
        let j := y / 2
        let p := camul.get i j
        let q := secret.get i j
        let red_values := merge_pixel_value p.1 q.1
        let green_values := merge_pixel_value p.2.1 q.2.1
        let blue_values := merge_pixel_value p.2.2 q.2.2
        let k := y % 2 * 2 + x % 2
        (red_values.getD k 0, green_values.getD k 0, blue_values.getD k 0)
      else (0, 0, 0) }

/-- The grid transform of `extract_image(camul)` from `main.py`. -/
def extract_image (camul : PixelGrid) : PixelGrid :=
  let data_xs := camul.width / 2
  let data_ys := camul.height / 2
  { width := data_xs
    height := data_ys
    get := fun i j =>
      if i < data_xs ∧ j < data_ys then
        let p1 := camul.get (2 * i) (2 * j)
        let p2 := camul.get (2 * i + 1) (2 * j)
        let p3 := camul.get (2 * i) (2 * j + 1)
        let p4 := camul.get (2 * i + 1) (2 * j + 1)
        (extract_pixel_value [p1.1, p2.1, p3.1, p4.1],
         extract_pixel_value [p1.2.1, p2.2.1, p3.2.1, p4.2.1],
         extract_pixel_value [p1.2.2, p2.2.2, p3.2.2, p4.2.2])
      else (0, 0, 0) }

/-! ### CLI driver model

`main()` of `main.py`, after `argparse` has accepted the invocation:
`method` and `camul` are present (both `required=True`, `nargs=1`), `secret`
and `output` are optional.  The file system is abstracted by two predicates
(`os.path.exists`, `os.path.isfile`) and the extension function
`os.path.splitext(...)[-1]`.  The outcome records how the process ends:
`crash` is an uncaught Python exception (interpreter traceback), `error` is
an explicit `sys.stderr.write` + `sys.exit(1)`, `success` is a normal return
after the image is saved to the recorded path, with `"<output> generated"`
printed.  File writes happen only on the `success` outcome: both `error`
and `crash` end the process before any `Image.save` call. -/

structure Args where
  method : String
  camul : String
  secret : Option String
  output : Option String

inductive CliOutcome where
  | crash (msg : String)
  | error (msg : String)
  | success (outputPath : String)
  deriving DecidableEq

/-- Process exit status for each outcome: the explicit error branches call
`sys.exit(1)`; an uncaught exception makes the CPython interpreter print
the traceback and terminate the process with status 1; a normal return
from `main()` exits with status 0. -/
def CliOutcome.exitCode : CliOutcome → Nat
  | CliOutcome.crash _ => 1
  | CliOutcome.error _ => 1
  | CliOutcome.success _ => 0

/-- Text the process writes to stderr: the explicit message of the
`sys.stderr.write` error branches, the interpreter traceback (whose final
line is the carried message) on an uncaught exception, nothing on
success. -/
def CliOutcome.stderrMsg : CliOutcome → Option String
  | CliOutcome.crash msg => some msg
  | CliOutcome.error msg => some msg
  | CliOutcome.success _ => none

/-- Structural model of Python `str.lower()` (ASCII case folding), used
instead of `String.toLower` so that applications reduce by computation. -/
def str_lower (s : String) : String := ⟨s.data.map Char.toLower⟩

/-- Embedding of the body of `main()` from `main.py` (after argument
parsing).  Line 108, `args.secret = args.secret[0]`, subscripts `None`
whenever the method is `hide` and no `--secret` was given, raising
`TypeError` — this is the first `crash` branch, and it precedes every
explicit check. -/
def main_run (pathExists isFile : String → Bool) (ext : String → String)
    (a : Args) : CliOutcome :=
  let method := str_lower a.method
  if method == "hide" && a.secret.isNone then
    CliOutcome.crash "TypeError: NoneType object is not subscriptable"
  else if method != "hide" && method != "extract" then
    CliOutcome.error "Error: invalid method"
  else if method == "hide" && a.secret.isNone then
    CliOutcome.error "Error: Method hide requires secret to be provided"
  else if !(pathExists a.camul && isFile a.camul) then
    CliOutcome.error ("Error: " ++ a.camul ++ " does not exist or is not a file")
  else if method == "hide" && !(pathExists (a.secret.getD "") && isFile (a.secret.getD "")) then
    CliOutcome.error ("Error: " ++ a.secret.getD "" ++ " does not exist or is not a file")
  else if a.output.isSome && pathExists (a.output.getD "") then
    CliOutcome.error ("Error: " ++ a.output.getD "" ++ " already exists")
  else
    CliOutcome.success
      (a.output.getD ((if method == "hide" then "hidden" else "extracted") ++ ext a.camul))

/-! ### Concrete instances used by witnesses and counterexamples -/

/-- A 1×1 carrier grid holding the pixel of the worked example in the spec. -/
def exampleCarrier : PixelGrid := ⟨1, 1, fun _ _ => (200, 10, 5)⟩

/-- A 1×1 secret grid holding the pixel of the worked example in the spec. -/
def exampleSecret : PixelGrid := ⟨1, 1, fun _ _ => (77, 250, 1)⟩

/-- A 2×2 all-black carrier grid. -/
def carrier2x2 : PixelGrid := ⟨2, 2, fun _ _ => (0, 0, 0)⟩

/-- A 2×2 carrier grid with the same low 2 bits as `carrier2x2` but
different top 6 bits everywhere. -/
def carrier2x2' : PixelGrid := ⟨2, 2, fun _ _ => (252, 100, 8)⟩

/-- A 2×2 secret grid. -/
def secret2x2 : PixelGrid := ⟨2, 2, fun x y => (40 * x + 3, 17 * y + 2, 90)⟩

/-- A 1×1 all-black secret grid. -/
def secret1x1 : PixelGrid := ⟨1, 1, fun _ _ => (7, 8, 9)⟩

/-- A file-system view in which every path exists and is a file. -/
def allPaths : String → Bool := fun _ => true

/-- An extension function returning `.png` for every path. -/
def pngExt : String → String := fun _ => ".png"

/-! ### Computation lemmas on the bit-level primitives -/

/-- `get_2bit_groups` written as an explicit four-element list. -/
theorem get_2bit_groups_eq (v : Nat) :
    get_2bit_groups v =
      [(v &&& (0b11 <<< 6)) >>> 6, (v &&& (0b11 <<< 4)) >>> 4,
       (v &&& (0b11 <<< 2)) >>> 2, v &&& 0b11] := by
  simp [get_2bit_groups, List.range_succ]

/-- `merge_pixel_value` written as an explicit four-element list. -/
theorem merge_pixel_value_eq (c s : Nat) :
    merge_pixel_value c s =
      [truncate_rightmost_2bits c + ((s &&& (0b11 <<< 6)) >>> 6),
       truncate_rightmost_2bits c + ((s &&& (0b11 <<< 4)) >>> 4),
       truncate_rightmost_2bits c + ((s &&& (0b11 <<< 2)) >>> 2),
       truncate_rightmost_2bits c + (s &&& 0b11)] := by
  simp [merge_pixel_value, get_2bit_groups_eq]

/-- Masking with `0b11` is reduction mod 4. -/
theorem and_three_eq_mod (s : Nat) : s &&& 0b11 = s % 4 := by
  simpa using Nat.and_pow_two_sub_one_eq_mod s 2

/-- Masking with a shifted `0b11` and shifting back equals masking the
shifted value: the two ways of isolating one 2-bit group agree. -/
theorem and_shift_comm (s k : Nat) :
    (s &&& (0b11 <<< k)) >>> k = (s >>> k) &&& 0b11 := by
  apply Nat.eq_of_testBit_eq
  intro i
  simp [Nat.testBit_shiftRight, Nat.testBit_and, Nat.testBit_shiftLeft,
    Nat.add_sub_cancel_left, Nat.le_add_right]

/-- Arithmetic form of one 2-bit group. -/
theorem and_shift_mod (s k : Nat) :
    (s &&& (0b11 <<< k)) >>> k = s / 2 ^ k % 4 := by
  rw [and_shift_comm, and_three_eq_mod, Nat.shiftRight_eq_div_pow]

/-- Arithmetic form of `truncate_rightmost_2bits`. -/
theorem truncate_rightmost_2bits_eq (c : Nat) :
    truncate_rightmost_2bits c = c / 4 * 4 := by
  simp [truncate_rightmost_2bits, Nat.shiftRight_eq_div_pow, Nat.shiftLeft_eq]

/-- `extract_pixel_value` on a four-element list, computed. -/
theorem extract_pixel_value_four (a b c d : Nat) :
    extract_pixel_value [a, b, c, d] =
      (((a % 4) <<< 2 + b % 4) <<< 2 + c % 4) <<< 2 + d % 4 := rfl

/-- Closed arithmetic form of decode-after-encode for one channel: the
result depends only on the secret byte, never on the carrier byte. -/
theorem extract_merge_closed (c s : Nat) :
    extract_pixel_value (merge_pixel_value c s) =
      ((s / 64 % 4 * 4 + s / 16 % 4) * 4 + s / 4 % 4) * 4 + s % 4 := by
  rw [merge_pixel_value_eq, extract_pixel_value_four]
  simp only [and_shift_mod, and_three_eq_mod]
  simp only [truncate_rightmost_2bits_eq, Nat.shiftLeft_eq]
  norm_num
  have h1 : (c / 4 * 4 + s / 64) % 4 = s / 64 % 4 := by omega
  have h2 : (c / 4 * 4 + s / 16) % 4 = s / 16 % 4 := by omega
  have h3 : (c / 4 * 4 + s / 4) % 4 = s / 4 % 4 := by omega
  have h4 : (c / 4 * 4 + s) % 4 = s % 4 := by omega
  omega

/-- Decode-after-encode recovers any 8-bit secret channel byte, for every
carrier byte. -/
theorem extract_merge_of_le (c s : Nat) (hs : s ≤ 255) :
    extract_pixel_value (merge_pixel_value c s) = s := by
  rw [extract_merge_closed]; omega

/-! ### Computation lemmas on the grid transforms -/

/-- The pixel written by `hide_image` at an in-range output coordinate. -/
theorem hide_image_get_eq (C S : PixelGrid) (x y : Nat)
    (hx : x < 2 * min C.width S.width) (hy : y < 2 * min C.height S.height) :
    (hide_image C S).get x y =
      ((merge_pixel_value (C.get (x / 2) (y / 2)).1 (S.get (x / 2) (y / 2)).1).getD
        (y % 2 * 2 + x % 2) 0,
       (merge_pixel_value (C.get (x / 2) (y / 2)).2.1 (S.get (x / 2) (y / 2)).2.1).getD
        (y % 2 * 2 + x % 2) 0,
       (merge_pixel_value (C.get (x / 2) (y / 2)).2.2 (S.get (x / 2) (y / 2)).2.2).getD
        (y % 2 * 2 + x % 2) 0) := by
  show (if x < 2 * min C.width S.width ∧ y < 2 * min C.height S.height then _ else _) = _
  rw [if_pos ⟨hx, hy⟩]

/-- The pixel read back by `extract_image` at an in-range output coordinate. -/
theorem extract_image_get_eq (E : PixelGrid) (i j : Nat)
    (hi : i < E.width / 2) (hj : j < E.height / 2) :
    (extract_image E).get i j =
      (extract_pixel_value [(E.get (2 * i) (2 * j)).1, (E.get (2 * i + 1) (2 * j)).1,
        (E.get (2 * i) (2 * j + 1)).1, (E.get (2 * i + 1) (2 * j + 1)).1],
       extract_pixel_value [(E.get (2 * i) (2 * j)).2.1, (E.get (2 * i + 1) (2 * j)).2.1,
        (E.get (2 * i) (2 * j + 1)).2.1, (E.get (2 * i + 1) (2 * j + 1)).2.1],
       extract_pixel_value [(E.get (2 * i) (2 * j)).2.2, (E.get (2 * i + 1) (2 * j)).2.2,
        (E.get (2 * i) (2 * j + 1)).2.2, (E.get (2 * i + 1) (2 * j + 1)).2.2]) := by
  show (if i < E.width / 2 ∧ j < E.height / 2 then _ else _) = _
  rw [if_pos ⟨hi, hj⟩]

/-- Decode-after-encode, one whole pixel: at any data coordinate the decoded
grid holds the per-channel decode of the per-channel encode. -/
theorem extract_hide_get (C S : PixelGrid) (x y : Nat)
    (hx : x < min C.width S.width) (hy : y < min C.height S.height) :
    (extract_image (hide_image C S)).get x y =
      (extract_pixel_value (merge_pixel_value (C.get x y).1 (S.get x y).1),
       extract_pixel_value (merge_pixel_value (C.get x y).2.1 (S.get x y).2.1),
       extract_pixel_value (merge_pixel_value (C.get x y).2.2 (S.get x y).2.2)) := by
  have hw : (hide_image C S).width = 2 * min C.width S.width := rfl
  have hh : (hide_image C S).height = 2 * min C.height S.height := rfl
  rw [extract_image_get_eq (hide_image C S) x y (by omega) (by omega)]
  rw [hide_image_get_eq C S (2 * x) (2 * y) (by omega) (by omega),
    hide_image_get_eq C S (2 * x + 1) (2 * y) (by omega) (by omega),
    hide_image_get_eq C S (2 * x) (2 * y + 1) (by omega) (by omega),
    hide_image_get_eq C S (2 * x + 1) (2 * y + 1) (by omega) (by omega)]
  have e1 : 2 * x / 2 = x := by omega
  have e2 : (2 * x + 1) / 2 = x := by omega
  have e3 : 2 * y / 2 = y := by omega
  have e4 : (2 * y + 1) / 2 = y := by omega
  have e5 : 2 * x % 2 = 0 := by omega
  have e6 : (2 * x + 1) % 2 = 1 := by omega
  have e7 : 2 * y % 2 = 0 := by omega
  have e8 : (2 * y + 1) % 2 = 1 := by omega
  rw [e1, e2, e3, e4, e5, e6, e7, e8]
  rw [merge_pixel_value_eq (C.get x y).1 (S.get x y).1,
    merge_pixel_value_eq (C.get x y).2.1 (S.get x y).2.1,
    merge_pixel_value_eq (C.get x y).2.2 (S.get x y).2.2]
  rfl

set_option maxRecDepth 2000 in
/-- For 8-bit values, masking with `0b11111100` keeps the value rounded down
to a multiple of 4, i.e. exactly the top 6 bits. -/
theorem and_mask252_of_lt : ∀ w, w < 256 → w &&& 252 = w / 4 * 4 := by decide

/-- The example 1×1 carrier grid has 8-bit channels. -/
theorem exampleCarrier_inRange : exampleCarrier.InRange :=
  fun _ _ _ _ =>
    ⟨by show (200 : Nat) ≤ 255; decide, by show (10 : Nat) ≤ 255; decide,
     by show (5 : Nat) ≤ 255; decide⟩

/-- The example 1×1 secret grid has 8-bit channels. -/
theorem exampleSecret_inRange : exampleSecret.InRange :=
  fun _ _ _ _ =>
    ⟨by show (77 : Nat) ≤ 255; decide, by show (250 : Nat) ≤ 255; decide,
     by show (1 : Nat) ≤ 255; decide⟩

/-! ### Claim theorems -/

/-- C1: Round-trip — for every carrier grid C and secret grid S of equal
dimensions with all channel values in [0,255], decoding the grid produced by
encoding returns a grid equal to S at every pixel and channel. -/
theorem round_trip_decode_encode (C S : PixelGrid)
    (hW : C.width = S.width) (hH : C.height = S.height)
    (hC : C.InRange) (hS : S.InRange) :
    PixelGrid.EqOn (extract_image (hide_image C S)) S := by
  have hw : (extract_image (hide_image C S)).width = S.width := by
    show 2 * min C.width S.width / 2 = S.width
    omega
  have hh : (extract_image (hide_image C S)).height = S.height := by
    show 2 * min C.height S.height / 2 = S.height
    omega
  refine ⟨hw, hh, ?_⟩
  intro x y hx hy
  have hx0 : x < 2 * min C.width S.width / 2 := hx
  have hy0 : y < 2 * min C.height S.height / 2 := hy
  have hx' : x < min C.width S.width := by omega
  have hy' : y < min C.height S.height := by omega
  rw [extract_hide_get C S x y hx' hy']
  obtain ⟨h1, h2, h3⟩ := hS x y (by omega) (by omega)
  rw [extract_merge_of_le _ _ h1, extract_merge_of_le _ _ h2,
    extract_merge_of_le _ _ h3]
  rfl

/-- Witness for C1 at the 1×1 grids of the worked example in the spec. -/
theorem round_trip_decode_encode_witness :
    (exampleCarrier.width = exampleSecret.width ∧
     exampleCarrier.height = exampleSecret.height ∧
     exampleCarrier.InRange ∧ exampleSecret.InRange) ∧
    PixelGrid.EqOn (extract_image (hide_image exampleCarrier exampleSecret))
      exampleSecret :=
  ⟨⟨rfl, rfl, exampleCarrier_inRange, exampleSecret_inRange⟩,
   round_trip_decode_encode exampleCarrier exampleSecret rfl rfl
    exampleCarrier_inRange exampleSecret_inRange⟩

/-- C2: Merge/extract inverse per channel — for every carrier byte and
secret byte in [0,255], extracting the merged values returns the secret. -/
theorem merge_extract_inverse (c s : Nat) (hc : c ≤ 255) (hs : s ≤ 255) :
    extract_pixel_value (merge_pixel_value c s) = s :=
  extract_merge_of_le c s hs

/-- Witness for C2 at the red channel of the worked example in the spec. -/
theorem merge_extract_inverse_witness :
    (200 ≤ 255 ∧ 77 ≤ 255) ∧
    extract_pixel_value (merge_pixel_value 200 77) = 77 :=
  ⟨⟨by decide, by decide⟩, merge_extract_inverse 200 77 (by decide) (by decide)⟩

/-- C3: Dimension contract — encoding yields a `(2·min(Cw,Sw)) ×
(2·min(Ch,Sh))` grid and decoding yields a `(Ew/2) × (Eh/2)` grid (floor
division). -/
theorem dimension_contract (C S E : PixelGrid) :
    (hide_image C S).width = 2 * min C.width S.width ∧
    (hide_image C S).height = 2 * min C.height S.height ∧
    (extract_image E).width = E.width / 2 ∧
    (extract_image E).height = E.height / 2 :=
  ⟨rfl, rfl, rfl, rfl⟩

/-- C4: Truncation property — `merge_pixel_value c s` returns four values,
each with the same top 6 bits as the carrier byte `c` and each in [0,255]. -/
theorem merge_truncation_property (c s : Nat) (hc : c ≤ 255) (hs : s ≤ 255) :
    (merge_pixel_value c s).length = 4 ∧
    ∀ v ∈ merge_pixel_value c s,
      v &&& 0b11111100 = c &&& 0b11111100 ∧ v ≤ 255 := by
  have hg0 : (s &&& 0b11 <<< 6) >>> 6 ≤ 3 := by
    rw [and_shift_mod]; exact Nat.le_of_lt_succ (Nat.mod_lt _ (by norm_num))
  have hg1 : (s &&& 0b11 <<< 4) >>> 4 ≤ 3 := by
    rw [and_shift_mod]; exact Nat.le_of_lt_succ (Nat.mod_lt _ (by norm_num))
  have hg2 : (s &&& 0b11 <<< 2) >>> 2 ≤ 3 := by
    rw [and_shift_mod]; exact Nat.le_of_lt_succ (Nat.mod_lt _ (by norm_num))
  have hg3 : s &&& 0b11 ≤ 3 := Nat.and_le_right
  constructor
  · rw [merge_pixel_value_eq]; rfl
  · intro v hv
    rw [merge_pixel_value_eq] at hv
    simp only [List.mem_cons, List.not_mem_nil, or_false] at hv
    rcases hv with rfl | rfl | rfl | rfl <;>
      rw [truncate_rightmost_2bits_eq] <;>
      refine ⟨?_, by omega⟩ <;>
      rw [and_mask252_of_lt _ (by omega), and_mask252_of_lt c (by omega)] <;>
      omega

/-- Witness for C4 at the red channel of the worked example in the spec. -/
theorem merge_truncation_property_witness :
    (200 ≤ 255 ∧ 77 ≤ 255) ∧
    ((merge_pixel_value 200 77).length = 4 ∧
     ∀ v ∈ merge_pixel_value 200 77,
       v &&& 0b11111100 = 200 &&& 0b11111100 ∧ v ≤ 255) :=
  ⟨⟨by decide, by decide⟩,
   merge_truncation_property 200 77 (by decide) (by decide)⟩

/-- C5: Bit-group split correctness — `get_2bit_groups v` is exactly the
four 2-bit groups of `v`, most-significant pair first, each in [0,3]. -/
theorem get_2bit_groups_spec (v : Nat) (hv : v ≤ 255) :
    get_2bit_groups v =
      [v >>> 6 &&& 0b11, v >>> 4 &&& 0b11, v >>> 2 &&& 0b11, v &&& 0b11] ∧
    ∀ g ∈ get_2bit_groups v, g ≤ 3 := by
  constructor
  · rw [get_2bit_groups_eq, and_shift_comm, and_shift_comm, and_shift_comm]
  · intro g hg
    rw [get_2bit_groups_eq] at hg
    simp only [List.mem_cons, List.not_mem_nil, or_false] at hg
    rcases hg with rfl | rfl | rfl | rfl
    · rw [and_shift_comm]; exact Nat.and_le_right
    · rw [and_shift_comm]; exact Nat.and_le_right
    · rw [and_shift_comm]; exact Nat.and_le_right
    · exact Nat.and_le_right

/-- Witness for C5 at the value 180 = 0b10110100. -/
theorem get_2bit_groups_spec_witness :
    180 ≤ 255 ∧
    (get_2bit_groups 180 =
      [180 >>> 6 &&& 0b11, 180 >>> 4 &&& 0b11, 180 >>> 2 &&& 0b11, 180 &&& 0b11] ∧
     ∀ g ∈ get_2bit_groups 180, g ≤ 3) :=
  ⟨by decide, get_2bit_groups_spec 180 (by decide)⟩

/-- C6: Carrier independence of the recovered secret — two carrier grids
that agree in the low 2 bits of every channel (i.e. differ only in the top
6 bits) produce, with any secret grid, encodings that decode to the same
grid. -/
theorem carrier_independence (C C' S : PixelGrid)
    (hw : C.width = C'.width) (hh : C.height = C'.height)
    (hlow : ∀ x y, x < C.width → y < C.height →
      (C.get x y).1 &&& 0b11 = (C'.get x y).1 &&& 0b11 ∧
      (C.get x y).2.1 &&& 0b11 = (C'.get x y).2.1 &&& 0b11 ∧
      (C.get x y).2.2 &&& 0b11 = (C'.get x y).2.2 &&& 0b11) :
    PixelGrid.EqOn (extract_image (hide_image C S))
      (extract_image (hide_image C' S)) := by
  have hW : (extract_image (hide_image C S)).width =
      (extract_image (hide_image C' S)).width := by
    show 2 * min C.width S.width / 2 = 2 * min C'.width S.width / 2
    rw [hw]
  have hH : (extract_image (hide_image C S)).height =
      (extract_image (hide_image C' S)).height := by
    show 2 * min C.height S.height / 2 = 2 * min C'.height S.height / 2
    rw [hh]
  refine ⟨hW, hH, ?_⟩
  intro x y hx hy
  have hx0 : x < 2 * min C.width S.width / 2 := hx
  have hy0 : y < 2 * min C.height S.height / 2 := hy
  have hx' : x < min C.width S.width := by omega
  have hy' : y < min C.height S.height := by omega
  rw [extract_hide_get C S x y hx' hy',
    extract_hide_get C' S x y (by omega) (by omega)]
  simp only [extract_merge_closed]

/-- Witness for C6: a black 2×2 carrier against one with the same low bits
but different top bits, around a 2×2 secret. -/
theorem carrier_independence_witness :
    (carrier2x2.width = carrier2x2'.width ∧
     carrier2x2.height = carrier2x2'.height ∧
     ∀ x y, x < carrier2x2.width → y < carrier2x2.height →
       (carrier2x2.get x y).1 &&& 0b11 = (carrier2x2'.get x y).1 &&& 0b11 ∧
       (carrier2x2.get x y).2.1 &&& 0b11 = (carrier2x2'.get x y).2.1 &&& 0b11 ∧
       (carrier2x2.get x y).2.2 &&& 0b11 = (carrier2x2'.get x y).2.2 &&& 0b11) ∧
    PixelGrid.EqOn (extract_image (hide_image carrier2x2 secret2x2))
      (extract_image (hide_image carrier2x2' secret2x2)) :=
  ⟨⟨rfl, rfl, fun _ _ _ _ =>
     ⟨by show (0 : Nat) &&& 0b11 = 252 &&& 0b11; decide,
      by show (0 : Nat) &&& 0b11 = 100 &&& 0b11; decide,
      by show (0 : Nat) &&& 0b11 = 8 &&& 0b11; decide⟩⟩,
   carrier_independence carrier2x2 carrier2x2' secret2x2 rfl rfl
    (fun _ _ _ _ =>
     ⟨by show (0 : Nat) &&& 0b11 = 252 &&& 0b11; decide,
      by show (0 : Nat) &&& 0b11 = 100 &&& 0b11; decide,
      by show (0 : Nat) &&& 0b11 = 8 &&& 0b11; decide⟩)⟩

/-- C7 counterexample: with a 2×2 carrier and a 1×1 secret, the encoded
output is 2×2, not twice the carrier dimensions (4×4) — the output is twice
the overlap `min` dimensions, which the carrier dimensions exceed here. -/
theorem hide_not_double_of_carrier :
    ¬((hide_image carrier2x2 secret1x1).width = 2 * carrier2x2.width ∧
      (hide_image carrier2x2 secret1x1).height = 2 * carrier2x2.height) := by
  decide

/-- C7 amended: the hide operation outputs a grid of twice the carrier
width and height whenever the secret is at least as large as the carrier in
both dimensions (in general it is twice the min of the two dimensions). -/
theorem hide_dims_double_carrier_of_le (C S : PixelGrid)
    (hw : C.width ≤ S.width) (hh : C.height ≤ S.height) :
    (hide_image C S).width = 2 * C.width ∧
    (hide_image C S).height = 2 * C.height := by
  constructor
  · show 2 * min C.width S.width = 2 * C.width
    omega
  · show 2 * min C.height S.height = 2 * C.height
    omega

/-- Witness for the amended C7: a 1×1 carrier inside a 2×2 secret. -/
theorem hide_dims_double_carrier_witness :
    (exampleCarrier.width ≤ secret2x2.width ∧
     exampleCarrier.height ≤ secret2x2.height) ∧
    ((hide_image exampleCarrier secret2x2).width = 2 * exampleCarrier.width ∧
     (hide_image exampleCarrier secret2x2).height = 2 * exampleCarrier.height) :=
  ⟨⟨by decide, by decide⟩,
   hide_dims_double_carrier_of_le exampleCarrier secret2x2 (by decide) (by decide)⟩

/-- C8: Block-to-group protocol — at every in-range data coordinate the
encoder writes the merged channel lists into the 2×2 block in the fixed
order top-left = group 0, top-right = group 1, bottom-left = group 2,
bottom-right = group 3 (group index `2*b + a` at offset `(a,b)`), and the
decoder reads the four block pixels in exactly that order before
extracting. -/
theorem block_to_group_protocol (C S E : PixelGrid) (i j : Nat)
    (hi : i < min C.width S.width) (hj : j < min C.height S.height)
    (hi' : i < E.width / 2) (hj' : j < E.height / 2) :
    (∀ a b, a < 2 → b < 2 →
      (hide_image C S).get (2 * i + a) (2 * j + b) =
        ((merge_pixel_value (C.get i j).1 (S.get i j).1).getD (2 * b + a) 0,
         (merge_pixel_value (C.get i j).2.1 (S.get i j).2.1).getD (2 * b + a) 0,
         (merge_pixel_value (C.get i j).2.2 (S.get i j).2.2).getD (2 * b + a) 0)) ∧
    (extract_image E).get i j =
      (extract_pixel_value [(E.get (2 * i) (2 * j)).1, (E.get (2 * i + 1) (2 * j)).1,
        (E.get (2 * i) (2 * j + 1)).1, (E.get (2 * i + 1) (2 * j + 1)).1],
       extract_pixel_value [(E.get (2 * i) (2 * j)).2.1, (E.get (2 * i + 1) (2 * j)).2.1,
        (E.get (2 * i) (2 * j + 1)).2.1, (E.get (2 * i + 1) (2 * j + 1)).2.1],
       extract_pixel_value [(E.get (2 * i) (2 * j)).2.2, (E.get (2 * i + 1) (2 * j)).2.2,
        (E.get (2 * i) (2 * j + 1)).2.2, (E.get (2 * i + 1) (2 * j + 1)).2.2]) := by
  constructor
  · intro a b ha hb
    rw [hide_image_get_eq C S (2 * i + a) (2 * j + b) (by omega) (by omega)]
    have e1 : (2 * i + a) / 2 = i := by omega
    have e2 : (2 * j + b) / 2 = j := by omega
    have e3 : (2 * j + b) % 2 * 2 + (2 * i + a) % 2 = 2 * b + a := by omega
    rw [e1, e2, e3]
  · exact extract_image_get_eq E i j hi' hj'

/-- Witness for C8 at data coordinate (0,0), with the worked-example 1×1
grids for the encoder half and a 2×2 grid for the decoder half. -/
theorem block_to_group_protocol_witness :
    (0 < min exampleCarrier.width exampleSecret.width ∧
     0 < min exampleCarrier.height exampleSecret.height ∧
     0 < carrier2x2'.width / 2 ∧ 0 < carrier2x2'.height / 2) ∧
    ((∀ a b, a < 2 → b < 2 →
      (hide_image exampleCarrier exampleSecret).get (2 * 0 + a) (2 * 0 + b) =
        ((merge_pixel_value (exampleCarrier.get 0 0).1 (exampleSecret.get 0 0).1).getD (2 * b + a) 0,
         (merge_pixel_value (exampleCarrier.get 0 0).2.1 (exampleSecret.get 0 0).2.1).getD (2 * b + a) 0,
         (merge_pixel_value (exampleCarrier.get 0 0).2.2 (exampleSecret.get 0 0).2.2).getD (2 * b + a) 0)) ∧
    (extract_image carrier2x2').get 0 0 =
      (extract_pixel_value [(carrier2x2'.get (2 * 0) (2 * 0)).1,
        (carrier2x2'.get (2 * 0 + 1) (2 * 0)).1,
        (carrier2x2'.get (2 * 0) (2 * 0 + 1)).1,
        (carrier2x2'.get (2 * 0 + 1) (2 * 0 + 1)).1],
       extract_pixel_value [(carrier2x2'.get (2 * 0) (2 * 0)).2.1,
        (carrier2x2'.get (2 * 0 + 1) (2 * 0)).2.1,
        (carrier2x2'.get (2 * 0) (2 * 0 + 1)).2.1,
        (carrier2x2'.get (2 * 0 + 1) (2 * 0 + 1)).2.1],
       extract_pixel_value [(carrier2x2'.get (2 * 0) (2 * 0)).2.2,
        (carrier2x2'.get (2 * 0 + 1) (2 * 0)).2.2,
        (carrier2x2'.get (2 * 0) (2 * 0 + 1)).2.2,
        (carrier2x2'.get (2 * 0 + 1) (2 * 0 + 1)).2.2])) :=
  ⟨⟨by decide, by decide, by decide, by decide⟩,
   block_to_group_protocol exampleCarrier exampleSecret carrier2x2' 0 0
    (by decide) (by decide) (by decide) (by decide)⟩

/-- On method `hide` with no `--secret`, the outcome is the `TypeError`
crash branch: line 108 of `main.py` subscripts `None` before the explicit
missing-secret check at lines 114-116 can run, so that check is dead code
on this path, and the stderr text is the interpreter traceback rather than
the designed message. -/
theorem hide_missing_secret_crashes :
    main_run allPaths allPaths pngExt
      ⟨"hide", "carrier.png", none, none⟩ =
      CliOutcome.crash ("TypeError: NoneType object is not subscriptable") := by
  rfl

/-- C9: CLI error on missing secret — for every invocation with method
`hide` and no `--secret` argument, the program writes an error message to
stderr and exits with exit code 1.  (Here via the uncaught `TypeError` of
line 108: the traceback goes to stderr and the interpreter exits with
status 1; the designed check at lines 114-116 is never reached.) -/
theorem hide_missing_secret_error_exit (pathExists isFile : String → Bool)
    (ext : String → String) (a : Args)
    (hm : a.method = "hide") (hs : a.secret = none) :
    (main_run pathExists isFile ext a).exitCode = 1 ∧
    ∃ msg, (main_run pathExists isFile ext a).stderrMsg = some msg := by
  have hrun : main_run pathExists isFile ext a =
      CliOutcome.crash ("TypeError: NoneType object is not subscriptable") := by
    unfold main_run
    rw [hm, hs]
    rfl
  rw [hrun]
  exact ⟨rfl, _, rfl⟩

/-- Witness for C9 at the invocation `-m hide -c carrier.png`. -/
theorem hide_missing_secret_error_exit_witness :
    ((⟨"hide", "carrier.png", none, none⟩ : Args).method = "hide" ∧
     (⟨"hide", "carrier.png", none, none⟩ : Args).secret = none) ∧
    ((main_run allPaths allPaths pngExt
        ⟨"hide", "carrier.png", none, none⟩).exitCode = 1 ∧
     ∃ msg, (main_run allPaths allPaths pngExt
        ⟨"hide", "carrier.png", none, none⟩).stderrMsg = some msg) :=
  ⟨⟨rfl, rfl⟩,
   hide_missing_secret_error_exit allPaths allPaths pngExt
    ⟨"hide", "carrier.png", none, none⟩ rfl rfl⟩

/-- C10 counterexample: method `extract` with `--output` omitted, in a file
system where the defaulted output path `extracted.png` already exists — the
program still reports success (and overwrites the file) instead of exiting
with an error, because the collision check at line 127 of `main.py` runs
only when `--output` is supplied explicitly. -/
theorem default_output_overwrite :
    allPaths ("extracted.png") = true ∧
    main_run allPaths allPaths pngExt ⟨"extract", "in.png", none, none⟩ =
      CliOutcome.success ("extracted.png") :=
  ⟨rfl, by rfl⟩

/-- C10 amended: when `--output` is supplied explicitly and the path already
exists, every invocation that does not die in the missing-secret `TypeError`
crash exits with code 1 and a stderr message before any file is written
(file writes happen only on the success outcome). -/
theorem no_silent_overwrite_explicit_output (pathExists isFile : String → Bool)
    (ext : String → String) (a : Args) (o : String)
    (hout : a.output = some o) (hex : pathExists o = true)
    (hnc : (str_lower a.method == "hide" && a.secret.isNone) = false) :
    ∃ msg, main_run pathExists isFile ext a = CliOutcome.error msg := by
  unfold main_run
  simp only [hout, hnc, Option.isSome_some, Option.getD_some, Bool.false_eq_true,
    if_false, hex, Bool.and_true, Bool.true_and, Bool.and_self, if_true]
  split
  · exact ⟨_, rfl⟩
  · split
    · exact ⟨_, rfl⟩
    · split
      · exact ⟨_, rfl⟩
      · exact ⟨_, rfl⟩

/-- Witness for the amended C10: explicit output `out.png` in a file system
where every path exists. -/
theorem no_silent_overwrite_witness :
    ((some ("out.png") : Option String) = some ("out.png") ∧
     allPaths ("out.png") = true ∧
     (str_lower ("extract") == "hide" && (none : Option String).isNone) = false) ∧
    ∃ msg, main_run allPaths allPaths pngExt
      ⟨"extract", "in.png", none, some ("out.png")⟩ = CliOutcome.error msg :=
  ⟨⟨rfl, rfl, by decide⟩,
   no_silent_overwrite_explicit_output allPaths allPaths pngExt
    ⟨"extract", "in.png", none, some ("out.png")⟩ ("out.png") rfl rfl (by decide)⟩
